import Mathlib

/-!
Verification development for the spin settlement engine of the `slot-game`
repository (Go). The Go sources are shallowly embedded: monetary `float64`
amounts are modelled as exact rationals `ℚ`, the transactional store as an
explicit `Store` value threaded through each operation, and a rolled-back
transaction as returning the original store. Go's sentinel error values
(`internal/error/errors.go`) are modelled as values carrying their dynamic
type and allocation identity, since `errors.Is` compares them by identity.
A nil-pointer dereference (a Go runtime panic) is modelled by a dedicated
`Outcome.panicked` result.
-/

namespace SlotGame

/-! ### Error values, from `internal/error/errors.go`.

The Go file declares five error struct types and five sentinel values.
`ErrInsufficientFunds` and `ErrInvalidAmount` are both `&InefficientFunds{}`:
distinct allocations of the same struct type. -/

/-- Dynamic type of a Go error value. The five named constructors are the
five struct types of `internal/error/errors.go`; `external` stands for an
error produced outside that file (gorm, database driver, context). -/
inductive ErrType where
  | userNotFound
  | userAlreadyExists
  | invalidPassword
  | inefficientFunds
  | invalidAmount
  | external (name : String)
  deriving DecidableEq, Repr

/-- A Go error value: its dynamic type together with the identity of the
allocation it points to. `errors.Is` with sentinel errors compares these
by identity. -/
structure GoError where
  ty : ErrType
  alloc : Nat
  deriving DecidableEq, Repr

/-- Sentinel `ErrUserNotFound = &UserNotFound{}`. -/
def ErrUserNotFound : GoError := ⟨ErrType.userNotFound, 0⟩

/-- Sentinel `ErrUserExists = &UserAlreadyExists{}`. -/
def ErrUserExists : GoError := ⟨ErrType.userAlreadyExists, 1⟩

/-- Sentinel `ErrInvalidPass = &InvalidPassword{}`. -/
def ErrInvalidPass : GoError := ⟨ErrType.invalidPassword, 2⟩

/-- Sentinel `ErrInsufficientFunds = &InefficientFunds{}`. -/
def ErrInsufficientFunds : GoError := ⟨ErrType.inefficientFunds, 3⟩

/-- Sentinel `ErrInvalidAmount = &InefficientFunds{}` — note the source
really allocates a second `InefficientFunds`, not an `InvalidAmount`. -/
def ErrInvalidAmount : GoError := ⟨ErrType.inefficientFunds, 4⟩

/-- The `Error()` method: the message is a function of the dynamic type
only (each struct type has one fixed message in the source). -/
def errorMessage : GoError → String
  | ⟨ErrType.userNotFound, _⟩ => "user not found"
  | ⟨ErrType.userAlreadyExists, _⟩ => "user with this login already exists"
  | ⟨ErrType.invalidPassword, _⟩ => "wrong credentials"
  | ⟨ErrType.inefficientFunds, _⟩ => "insufficient funds"
  | ⟨ErrType.invalidAmount, _⟩ => "invalid amount"
  | ⟨ErrType.external s, _⟩ => s

/-- The `errors.Is(err, target)` test as used with the sentinel errors of
this repository (none of which define an `Is` method): identity comparison
of the error values. -/
def errorsIs (err target : GoError) : Bool := err == target

/-! ### Slot configuration, from `internal/config/app.go`. -/

/-- `config.SlotConfig`. Amounts and probabilities are `float64` in Go,
modelled as `ℚ`. -/
structure SlotConfig where
  MultiplierThree : ℚ
  MultiplierTwo : ℚ
  TwoMatchProbability : ℚ
  ThreeMatchProbability : ℚ
  RateLimit : String

/-- The default rate-limit flag value of the source. -/
def defaultRateLimit : String := "1-S"

/-! ### Random source, from `slotService.rng` (`math/rand`). -/

/-- The random source of `slotService`, modelled as the streams of values
its two kinds of draws produce: `intDraws i` is the result of the i-th
`rng.Intn` call of one `calculatePayout` invocation (already reduced below
its bound), `floatDraws i` the result of the i-th `rng.Float64` call.
`Float64` draws lie in the half-open interval `[0,1)` — zero included. -/
structure RngStream where
  intDraws : Nat → Nat
  floatDraws : Nat → ℚ

/-! ### Data model, from `internal/models`. -/

/-- `models.User`: internal numeric id (`gorm.Model.ID`), external UUID
(modelled as a number) and the mutable balance. Login and password play no
role in settlement and are omitted. -/
structure User where
  id : Nat
  externalID : Nat
  balance : ℚ
  deriving DecidableEq, Repr

/-- `models.Spin`: one immutable history record. -/
structure Spin where
  userID : Nat
  betAmount : ℚ
  winAmount : ℚ
  deriving DecidableEq, Repr

/-- The transactional store: the `users` and `spins` tables. An operation
that rolls back returns the store it was given. -/
structure Store where
  users : List User
  spins : List Spin
  deriving DecidableEq, Repr

/-- Result of one Go call: a value, an error (after the transaction was
rolled back), or a runtime panic (nil-pointer dereference). -/
inductive Outcome (α : Type) where
  | ok (val : α)
  | fail (e : GoError)
  | panicked
  deriving DecidableEq, Repr

/-- Whether an outcome is a success. -/
def Outcome.isOk {α : Type} : Outcome α → Bool
  | Outcome.ok _ => true
  | _ => false

/-- The database keys are unique: no two rows share an internal id and no
two rows share an external id. -/
def Store.WF (st : Store) : Prop :=
  (st.users.map User.id).Nodup ∧ (st.users.map User.externalID).Nodup

instance (st : Store) : Decidable st.WF := by
  unfold Store.WF
  infer_instance

/-- The gorm query `Where("external_id = ?", id).First(user)`. -/
def findUserByExternalId (users : List User) (eid : Nat) : Option User :=
  users.find? (fun u => u.externalID == eid)

/-- The gorm query `Where("id = ?", id).First(user)`. -/
def findUserById (users : List User) (userId : Nat) : Option User :=
  users.find? (fun u => u.id == userId)

/-- The gorm write `Where("id = ?", userId).Update("balance", b)`: every
row matching the id gets the new balance, other rows are untouched. -/
def setBal (users : List User) (userId : Nat) (b : ℚ) : List User :=
  users.map (fun u => if u.id == userId then { u with balance := b } else u)

/-- Balance observed for an external id (0 when the row is absent). -/
def getBalance (st : Store) (eid : Nat) : ℚ :=
  ((findUserByExternalId st.users eid).map User.balance).getD 0

/-- The zero value a gorm `First` into a fresh `&models.User{}` leaves
behind when the row is not found. -/
def zeroUser : User := ⟨0, 0, 0⟩

/-! ### User repository, from `src/unnamed/part_009` (`package repository`). -/

/-- `userRepository.GetByExternalId`: returns the row, or Go `nil` (here
`none`) when `gorm.ErrRecordNotFound` — not an error. -/
def userRepository.GetByExternalId (st : Store) (eid : Nat) : Option User :=
  findUserByExternalId st.users eid

/-- `userRepository.updateBalance`: reads the row by internal id (keeping
the zero value when the row is absent, as the source swallows
`gorm.ErrRecordNotFound`), adds `amount`, and writes the new balance back
with an `Update` keyed on the same id. `fault` injects the error the
store's write may return; on a fault the source rolls the transaction
back, so the original store is returned. -/
def userRepository.updateBalance (fault : Option GoError) (st : Store) (userId : Nat)
    (amount : ℚ) : Outcome ℚ × Store :=
  let user := (findUserById st.users userId).getD zeroUser
  let newBalance := user.balance + amount
  match fault with
  | some e => (Outcome.fail e, st)
  | none =>
      (Outcome.ok newBalance, { st with users := setBal st.users userId newBalance })

/-- `userRepository.Deposit userId amount = updateBalance userId amount`. -/
def userRepository.Deposit (fault : Option GoError) (st : Store) (userId : Nat)
    (amount : ℚ) : Outcome ℚ × Store :=
  userRepository.updateBalance fault st userId amount

/-- `userRepository.Withdraw userId amount = updateBalance userId (-amount)`. -/
def userRepository.Withdraw (fault : Option GoError) (st : Store) (userId : Nat)
    (amount : ℚ) : Outcome ℚ × Store :=
  userRepository.updateBalance fault st userId (-amount)

/-! ### User service, from `internal/service/user.go`. -/

/-- `userService.GetByExternalID`: maps the repository's `nil` row to
`ErrUserNotFound`. Reads do not mutate the store. -/
def userService.GetByExternalID (st : Store) (eid : Nat) : Outcome User :=
  match userRepository.GetByExternalId st eid with
  | none => Outcome.fail ErrUserNotFound
  | some user => Outcome.ok user

/-- `userService.Withdraw`: resolves the row through the repository
directly (NOT through `userService.GetByExternalID`), so a missing row
comes back as Go `nil` with a nil error, and the following
`user.Balance` dereference panics. With the row present: the funds check
`user.Balance < amount` rolls back with `ErrInsufficientFunds`, otherwise
the repository withdrawal runs. -/
def userService.Withdraw (fault : Option GoError) (st : Store) (eid : Nat)
    (amount : ℚ) : Outcome ℚ × Store :=
  match userRepository.GetByExternalId st eid with
  | none => (Outcome.panicked, st)
  | some user =>
      if user.balance < amount then (Outcome.fail ErrInsufficientFunds, st)
      else userRepository.Withdraw fault st user.id amount

/-- `userService.Deposit`: rejects `amount <= 0` with `ErrInvalidAmount`
(rolling back), then resolves the row through the repository directly —
again panicking on `user.ID` when the row is missing. -/
def userService.Deposit (fault : Option GoError) (st : Store) (eid : Nat)
    (amount : ℚ) : Outcome ℚ × Store :=
  if amount ≤ 0 then (Outcome.fail ErrInvalidAmount, st)
  else
    match userRepository.GetByExternalId st eid with
    | none => (Outcome.panicked, st)
    | some user => userRepository.Deposit fault st user.id amount

/-! ### Slot repository, from `src/unnamed/part_008` (`package repository`). -/

/-- `slotRepository.AddSpin`: appends the record; `fault` injects the
error the store's `Create` may return, which rolls the transaction back. -/
def slotRepository.AddSpin (fault : Option GoError) (st : Store) (record : Spin) :
    Outcome Unit × Store :=
  match fault with
  | some e => (Outcome.fail e, st)
  | none => (Outcome.ok (), { st with spins := st.spins ++ [record] })

/-! ### Slot service, from `internal/service/slot.go`. -/

/-- The slot symbols, from the package-level `symbols` variable. -/
def symbols : List String := ["A", "B", "C", "D"]

/-- Placeholder for an out-of-range list read (cannot happen: indices are
reduced modulo the list length). -/
def defaultSymbol : String := ""

/-- `slotService.calculatePayout`: draws three symbols (which the source
builds into `spinResult` but never returns or stores), then in fixed
priority order draws `r1` and pays `betAmount * MultiplierThree` when
`r1 <= ThreeMatchProbability`, else draws `r2` and pays
`betAmount * MultiplierTwo` when `r2 <= TwoMatchProbability`, else 0. -/
def slotService.calculatePayout (cfg : SlotConfig) (rng : RngStream) (betAmount : ℚ) : ℚ :=
  let _spinResult : List String :=
    [symbols.getD (rng.intDraws 0 % symbols.length) defaultSymbol,
     symbols.getD (rng.intDraws 1 % symbols.length) defaultSymbol,
     symbols.getD (rng.intDraws 2 % symbols.length) defaultSymbol]
  if rng.floatDraws 0 ≤ cfg.ThreeMatchProbability then
    betAmount * cfg.MultiplierThree
  else if rng.floatDraws 1 ≤ cfg.TwoMatchProbability then
    betAmount * cfg.MultiplierTwo
  else 0

/-- Write-fault injection for the three store writes one `spin` performs:
the debit update, the credit update, and the history insert. `none`
everywhere models a fault-free store. -/
structure DbFaults where
  debitWriteErr : Option GoError
  creditWriteErr : Option GoError
  addSpinErr : Option GoError
  deriving DecidableEq, Repr

/-- A fault-free store. -/
def noFaults : DbFaults := ⟨none, none, none⟩

/-- `slotService.spin`: one settlement attempt inside one transaction.
Resolve the user (service-level, so a missing row is `ErrUserNotFound`),
withdraw the bet, compute the payout, deposit it when positive, append
the `Spin` record, commit. Every error path calls `tr.Rollback()` before
returning, which here means returning the original store; a panic
likewise never commits the transaction. -/
def slotService.spin (cfg : SlotConfig) (rng : RngStream) (f : DbFaults) (st : Store)
    (eid : Nat) (betAmount : ℚ) : Outcome Spin × Store :=
  match userService.GetByExternalID st eid with
  | Outcome.fail e => (Outcome.fail e, st)
  | Outcome.panicked => (Outcome.panicked, st)
  | Outcome.ok user =>
    match userService.Withdraw f.debitWriteErr st eid betAmount with
    | (Outcome.fail e, _) => (Outcome.fail e, st)
    | (Outcome.panicked, _) => (Outcome.panicked, st)
    | (Outcome.ok _, st1) =>
      let payout := slotService.calculatePayout cfg rng betAmount
      let step4 : Outcome Unit × Store :=
        if 0 < payout then
          match userService.Deposit f.creditWriteErr st1 eid payout with
          | (Outcome.fail e, _) => (Outcome.fail e, st)
          | (Outcome.panicked, _) => (Outcome.panicked, st)
          | (Outcome.ok _, st2) => (Outcome.ok (), st2)
        else (Outcome.ok (), st1)
      match step4 with
      | (Outcome.fail e, s) => (Outcome.fail e, s)
      | (Outcome.panicked, s) => (Outcome.panicked, s)
      | (Outcome.ok _, st2) =>
        let record : Spin := { userID := user.id, betAmount := betAmount, winAmount := payout }
        match slotRepository.AddSpin f.addSpinErr st2 record with
        | (Outcome.fail e, _) => (Outcome.fail e, st)
        | (Outcome.panicked, _) => (Outcome.panicked, st)
        | (Outcome.ok _, st3) => (Outcome.ok record, st3)

/-! ### Sequences of settlements (for the conservation property). -/

/-- One settlement attempt of a sequence: its bet, the random draws its
payout computation will consume, and the store faults in effect. -/
structure SpinAttempt where
  betAmount : ℚ
  rng : RngStream
  faults : DbFaults

/-- Run a sequence of `spin` calls for one external id, threading the
store; collects each attempt's outcome. -/
def runSpins (cfg : SlotConfig) (eid : Nat) :
    List SpinAttempt → Store → Store × List (Outcome Spin)
  | [], st => (st, [])
  | a :: rest, st =>
      let r := slotService.spin cfg a.rng a.faults st eid a.betAmount
      let rr := runSpins cfg eid rest r.2
      (rr.1, r.1 :: rr.2)

/-- Sum of the bet amounts of a sequence of attempts. -/
def sumBets (l : List SpinAttempt) : ℚ := (l.map SpinAttempt.betAmount).sum

/-- Sum of the win amounts recorded by the committed outcomes. -/
def sumWins (outs : List (Outcome Spin)) : ℚ :=
  (outs.map (fun o => match o with | Outcome.ok r => r.winAmount | _ => 0)).sum

/-! ### Retry policy, from `slotService.RetrySpin` and
`github.com/cenkalti/backoff/v4`.

`RetrySpin` wraps `spin` in `backoff.Retry` with the exponential backoff
built in `NewSlotService`. The i-th call of the wrapped operation is
modelled by `outcomes i` (`none` = the spin succeeded, `some e` = it
returned the error `e`); the library's randomized interval draws by
`rands i` (each a `Float64` in `[0,1)`) and the wall-clock duration of
the i-th attempt itself by `durs i`. Times are rational nanoseconds. -/

/-- Final state of one `backoff.Retry` call. -/
inductive RetryFinal where
  | success
  | failure (e : GoError)
  deriving DecidableEq, Repr

/-- Observable trace of one `backoff.Retry` call: how it ended, how many
times the operation ran, and the total time spent sleeping between
attempts. -/
structure RetryTrace where
  final : RetryFinal
  attempts : Nat
  slept : ℚ
  deriving DecidableEq, Repr

/-- The `ExponentialBackOff` parameters relevant to `NextBackOff`. -/
structure BackOffParams where
  initialInterval : ℚ
  randomizationFactor : ℚ
  multiplier : ℚ
  maxInterval : ℚ
  maxElapsedTime : ℚ

/-- The library's `getRandomValueFromInterval`: a randomized interval in
`[currentInterval * (1 - rf), currentInterval * (1 + rf) + 1)`. -/
def getRandomValueFromInterval (randomizationFactor random currentInterval : ℚ) : ℚ :=
  if randomizationFactor = 0 then currentInterval
  else
    let delta := randomizationFactor * currentInterval
    let minInterval := currentInterval - delta
    let maxInterval := currentInterval + delta
    minInterval + random * (maxInterval - minInterval + 1)

/-- The library's `incrementCurrentInterval`: multiply, capping at
`maxInterval`. -/
def incrementCurrentInterval (currentInterval maxInterval multiplier : ℚ) : ℚ :=
  if maxInterval / multiplier ≤ currentInterval then maxInterval
  else currentInterval * multiplier

/-- The `backoff.Retry` loop, specialised to the classification
`RetrySpin` uses: an error is returned for retry exactly when
`errors.Is(err, ErrInsufficientFunds)`, every other error is wrapped in
`backoff.Permanent` and surfaced at once. One step: run the operation
(taking `durs i` time); on success stop; on a permanent error stop; on a
recoverable error ask `NextBackOff` for the next interval, stop with the
error when the elapsed-time budget is exhausted, otherwise sleep and loop.
`fuel` bounds the number of iterations we unfold; `none` means the loop
did not finish within `fuel` iterations. -/
def backoffRetryAux (params : BackOffParams) (outcomes : Nat → Option GoError)
    (rands : Nat → ℚ) (durs : Nat → ℚ) :
    Nat → Nat → ℚ → ℚ → ℚ → Option RetryTrace
  | 0, _, _, _, _ => none
  | fuel + 1, i, elapsed, currentInterval, slept =>
      let elapsed1 := elapsed + durs i
      match outcomes i with
      | none => some ⟨RetryFinal.success, i + 1, slept⟩
      | some e =>
          if errorsIs e ErrInsufficientFunds then
            let next := getRandomValueFromInterval params.randomizationFactor (rands i)
              currentInterval
            let current' := incrementCurrentInterval currentInterval params.maxInterval
              params.multiplier
            if params.maxElapsedTime ≠ 0 ∧ params.maxElapsedTime < elapsed1 + next then
              some ⟨RetryFinal.failure e, i + 1, slept⟩
            else
              backoffRetryAux params outcomes rands durs fuel (i + 1) (elapsed1 + next)
                current' (slept + next)
          else
            some ⟨RetryFinal.failure e, i + 1, slept⟩

/-- The backoff configuration `NewSlotService` builds: initial interval
500ms, multiplier 1.5, max elapsed time 2s, plus the library defaults
randomization factor 0.5 and max interval 60s (units: nanoseconds). -/
def slotBackoffParams : BackOffParams :=
  ⟨500000000, 1/2, 3/2, 60000000000, 2000000000⟩

/-- `RetrySpin`'s retry loop: `backoff.Retry` first calls `Reset`, so the
loop starts at the initial interval with zero elapsed time. -/
def slotRetry (outcomes : Nat → Option GoError) (rands : Nat → ℚ) (durs : Nat → ℚ)
    (fuel : Nat) : Option RetryTrace :=
  backoffRetryAux slotBackoffParams outcomes rands durs fuel 0 0
    slotBackoffParams.initialInterval 0

/-! ### Concrete inputs used by the witnesses. -/

/-- The configuration of the repository's `TestRetrySpin_Success`:
multipliers 10 and 2, both probabilities 1. -/
def witCfg : SlotConfig := ⟨10, 2, 1, 1, defaultRateLimit⟩

/-- The `NoMatch` configuration of `TestRetrySpin_VariousConfigs`:
multipliers 10 and 5, both probabilities 0. -/
def noWinCfg : SlotConfig := ⟨10, 5, 0, 0, defaultRateLimit⟩

/-- A random source whose draws are all zero — `rand.Float64` can return
exactly 0. -/
def witRng : RngStream := ⟨fun _ => 0, fun _ => 0⟩

/-- A one-user store: internal id 1, external id 7, balance 100. -/
def witSt : Store := ⟨[⟨1, 7, 100⟩], []⟩

/-- Two concrete settlement attempts of bet 10 each, fault-free. -/
def witAttempts : List SpinAttempt := [⟨10, witRng, noFaults⟩, ⟨10, witRng, noFaults⟩]

/-! ### Helper lemmas about the store embedding. -/

theorem findUserByExternalId_mem {users : List User} {eid : Nat} {u : User}
    (h : findUserByExternalId users eid = some u) : u ∈ users ∧ u.externalID = eid := by
  refine ⟨List.mem_of_find?_eq_some h, ?_⟩
  have hp := List.find?_some h
  simpa using hp

theorem find?_user_cons (p : User → Bool) (h : User) (t : List User) :
    List.find? p (h :: t) = if p h then some h else List.find? p t := by
  cases hc : p h
  · rw [List.find?_cons_of_neg _ (by simp [hc])]
    simp
  · rw [List.find?_cons_of_pos _ hc]
    simp

theorem findUserById_of_mem {users : List User} {u : User}
    (hn : (users.map User.id).Nodup) (hu : u ∈ users) :
    findUserById users u.id = some u := by
  induction users with
  | nil => cases hu
  | cons h t ih =>
      rw [List.map_cons, List.nodup_cons] at hn
      rcases List.mem_cons.mp hu with rfl | hmem
      · unfold findUserById
        simp only [find?_user_cons]
        simp
      · have hne : h.id ≠ u.id := by
          intro he
          exact (he ▸ hn.1) (List.mem_map_of_mem User.id hmem)
        unfold findUserById at ih ⊢
        simp only [find?_user_cons]
        rw [if_neg (by simp [hne])]
        exact ih hn.2 hmem

theorem setBal_map_id (users : List User) (userId : Nat) (b : ℚ) :
    (setBal users userId b).map User.id = users.map User.id := by
  have hid : ∀ u : User, (if u.id == userId then { u with balance := b } else u).id = u.id := by
    intro u
    split <;> rfl
  induction users with
  | nil => rfl
  | cons h t ih =>
      simp only [setBal, List.map_cons] at ih ⊢
      rw [hid]
      exact congrArg _ ih

theorem setBal_map_externalID (users : List User) (userId : Nat) (b : ℚ) :
    (setBal users userId b).map User.externalID = users.map User.externalID := by
  have hext : ∀ u : User,
      (if u.id == userId then { u with balance := b } else u).externalID = u.externalID := by
    intro u
    split <;> rfl
  induction users with
  | nil => rfl
  | cons h t ih =>
      simp only [setBal, List.map_cons] at ih ⊢
      rw [hext]
      exact congrArg _ ih

theorem WF_setBal {st : Store} (hwf : st.WF) (userId : Nat) (b : ℚ) :
    Store.WF { st with users := setBal st.users userId b } := by
  constructor
  · show ((setBal st.users userId b).map User.id).Nodup
    rw [setBal_map_id]
    exact hwf.1
  · show ((setBal st.users userId b).map User.externalID).Nodup
    rw [setBal_map_externalID]
    exact hwf.2

theorem WF_spins {st : Store} (hwf : st.WF) (sp : List Spin) :
    Store.WF { st with spins := sp } := hwf

theorem findUserByExternalId_setBal (users : List User) (userId : Nat) (b : ℚ) (eid : Nat) :
    findUserByExternalId (setBal users userId b) eid
      = (findUserByExternalId users eid).map
          (fun u => if u.id == userId then { u with balance := b } else u) := by
  induction users with
  | nil => rfl
  | cons h t ih =>
      have hext : (if (h.id == userId) = true then { h with balance := b } else h).externalID
          = h.externalID := by
        split <;> rfl
      unfold findUserByExternalId setBal at ih ⊢
      simp only [List.map_cons, find?_user_cons, hext]
      cases hc : (h.externalID == eid)
      · simpa using ih
      · simp

/-! ### Behaviour of the balance mutator and the user service. -/

theorem updateBalance_none (st : Store) {u : User} (hn : (st.users.map User.id).Nodup)
    (hu : u ∈ st.users) (amount : ℚ) :
    userRepository.updateBalance none st u.id amount
      = (Outcome.ok (u.balance + amount),
         { st with users := setBal st.users u.id (u.balance + amount) }) := by
  simp only [userRepository.updateBalance, findUserById_of_mem hn hu, Option.getD_some]

theorem updateBalance_fault (st : Store) (userId : Nat) (e : GoError) (amount : ℚ) :
    userRepository.updateBalance (some e) st userId amount = (Outcome.fail e, st) := rfl

theorem GetByExternalID_none {st : Store} {eid : Nat}
    (hfind : findUserByExternalId st.users eid = none) :
    userService.GetByExternalID st eid = Outcome.fail ErrUserNotFound := by
  simp only [userService.GetByExternalID, userRepository.GetByExternalId, hfind]

theorem GetByExternalID_some {st : Store} {eid : Nat} {u : User}
    (hfind : findUserByExternalId st.users eid = some u) :
    userService.GetByExternalID st eid = Outcome.ok u := by
  simp only [userService.GetByExternalID, userRepository.GetByExternalId, hfind]

theorem Withdraw_panics {st : Store} {eid : Nat} (f : Option GoError) (amount : ℚ)
    (hfind : findUserByExternalId st.users eid = none) :
    userService.Withdraw f st eid amount = (Outcome.panicked, st) := by
  simp only [userService.Withdraw, userRepository.GetByExternalId, hfind]

theorem Withdraw_insufficient {st : Store} {eid : Nat} {u : User} {amount : ℚ}
    (f : Option GoError)
    (hfind : findUserByExternalId st.users eid = some u) (hlt : u.balance < amount) :
    userService.Withdraw f st eid amount = (Outcome.fail ErrInsufficientFunds, st) := by
  simp only [userService.Withdraw, userRepository.GetByExternalId, hfind]
  rw [if_pos hlt]

theorem Withdraw_ok {st : Store} {eid : Nat} {u : User} {amount : ℚ}
    (hn : (st.users.map User.id).Nodup)
    (hfind : findUserByExternalId st.users eid = some u) (hge : ¬ u.balance < amount) :
    userService.Withdraw none st eid amount
      = (Outcome.ok (u.balance + -amount),
         { st with users := setBal st.users u.id (u.balance + -amount) }) := by
  have hu := (findUserByExternalId_mem hfind).1
  simp only [userService.Withdraw, userRepository.GetByExternalId, hfind]
  rw [if_neg hge]
  unfold userRepository.Withdraw
  exact updateBalance_none st hn hu (-amount)

theorem Withdraw_fault {st : Store} {eid : Nat} {u : User} {amount : ℚ} (e : GoError)
    (hfind : findUserByExternalId st.users eid = some u) (hge : ¬ u.balance < amount) :
    userService.Withdraw (some e) st eid amount = (Outcome.fail e, st) := by
  simp only [userService.Withdraw, userRepository.GetByExternalId, hfind]
  rw [if_neg hge]
  rfl

theorem Deposit_invalid {st : Store} {eid : Nat} {amount : ℚ} (f : Option GoError)
    (hle : amount ≤ 0) :
    userService.Deposit f st eid amount = (Outcome.fail ErrInvalidAmount, st) := by
  unfold userService.Deposit
  rw [if_pos hle]

theorem Deposit_panics {st : Store} {eid : Nat} {amount : ℚ} (f : Option GoError)
    (hfind : findUserByExternalId st.users eid = none) (hpos : ¬ amount ≤ 0) :
    userService.Deposit f st eid amount = (Outcome.panicked, st) := by
  unfold userService.Deposit
  rw [if_neg hpos]
  simp only [userRepository.GetByExternalId, hfind]

theorem Deposit_ok {st : Store} {eid : Nat} {u : User} {amount : ℚ}
    (hn : (st.users.map User.id).Nodup)
    (hfind : findUserByExternalId st.users eid = some u) (hpos : ¬ amount ≤ 0) :
    userService.Deposit none st eid amount
      = (Outcome.ok (u.balance + amount),
         { st with users := setBal st.users u.id (u.balance + amount) }) := by
  have hu := (findUserByExternalId_mem hfind).1
  unfold userService.Deposit
  rw [if_neg hpos]
  simp only [userRepository.GetByExternalId, hfind]
  unfold userRepository.Deposit
  exact updateBalance_none st hn hu amount

theorem Deposit_fault {st : Store} {eid : Nat} {u : User} {amount : ℚ} (e : GoError)
    (hfind : findUserByExternalId st.users eid = some u) (hpos : ¬ amount ≤ 0) :
    userService.Deposit (some e) st eid amount = (Outcome.fail e, st) := by
  unfold userService.Deposit
  rw [if_neg hpos]
  simp only [userRepository.GetByExternalId, hfind]
  rfl

/-! ### Case analysis of one settlement attempt. -/

/-- Every run of `slotService.spin` either commits — appending exactly one
record and moving the user's balance by `-betAmount` plus the positive
payout — or fails with some error, returning the store untouched (the
transaction was rolled back). A panic never escapes `spin`: the user row
resolved in step 1 is still present at the inner resolutions. -/
theorem spin_cases (cfg : SlotConfig) (rng : RngStream) (f : DbFaults) (st : Store)
    (eid : Nat) (betAmount : ℚ) (hwf : st.WF) :
    (∃ rec st', slotService.spin cfg rng f st eid betAmount = (Outcome.ok rec, st') ∧
      (∃ u u', findUserByExternalId st.users eid = some u ∧
        rec = ⟨u.id, betAmount, slotService.calculatePayout cfg rng betAmount⟩ ∧
        ¬ u.balance < betAmount ∧
        st'.spins = st.spins ++ [rec] ∧ st'.WF ∧
        findUserByExternalId st'.users eid = some u' ∧ u'.id = u.id ∧
        u'.balance = u.balance - betAmount
          + (if 0 < rec.winAmount then rec.winAmount else 0))) ∨
    (∃ e, slotService.spin cfg rng f st eid betAmount = (Outcome.fail e, st)) := by
  cases hfind : findUserByExternalId st.users eid with
  | none =>
      right
      refine ⟨ErrUserNotFound, ?_⟩
      simp only [slotService.spin, GetByExternalID_none hfind]
  | some u =>
      by_cases hlt : u.balance < betAmount
      · right
        refine ⟨ErrInsufficientFunds, ?_⟩
        simp only [slotService.spin, GetByExternalID_some hfind,
          Withdraw_insufficient f.debitWriteErr hfind hlt]
      · cases hdf : f.debitWriteErr with
        | some e =>
            right
            refine ⟨e, ?_⟩
            simp only [slotService.spin, GetByExternalID_some hfind, hdf,
              Withdraw_fault e hfind hlt]
        | none =>
            have hn := hwf.1
            have hfind1 : findUserByExternalId
                (setBal st.users u.id (u.balance + -betAmount)) eid
                = some { u with balance := u.balance + -betAmount } := by
              rw [findUserByExternalId_setBal, hfind]
              simp
            have hn1 : ((setBal st.users u.id (u.balance + -betAmount)).map User.id).Nodup := by
              rw [setBal_map_id]
              exact hn
            by_cases hp : 0 < slotService.calculatePayout cfg rng betAmount
            · cases hcf : f.creditWriteErr with
              | some e =>
                  right
                  refine ⟨e, ?_⟩
                  simp only [slotService.spin, GetByExternalID_some hfind, hdf,
                    Withdraw_ok hn hfind hlt, if_pos hp, hcf,
                    @Deposit_fault ⟨setBal st.users u.id (u.balance + -betAmount), st.spins⟩
                      eid { u with balance := u.balance + -betAmount }
                      (slotService.calculatePayout cfg rng betAmount) e hfind1 (not_le.mpr hp)]
              | none =>
                  cases haf : f.addSpinErr with
                  | some e =>
                      right
                      refine ⟨e, ?_⟩
                      simp only [slotService.spin, GetByExternalID_some hfind, hdf,
                        Withdraw_ok hn hfind hlt, if_pos hp, hcf,
                        @Deposit_ok ⟨setBal st.users u.id (u.balance + -betAmount), st.spins⟩
                          eid { u with balance := u.balance + -betAmount }
                          (slotService.calculatePayout cfg rng betAmount) hn1 hfind1
                          (not_le.mpr hp),
                        haf, slotRepository.AddSpin]
                  | none =>
                      left
                      simp only [slotService.spin, GetByExternalID_some hfind, hdf,
                        Withdraw_ok hn hfind hlt, if_pos hp, hcf,
                        @Deposit_ok ⟨setBal st.users u.id (u.balance + -betAmount), st.spins⟩
                          eid { u with balance := u.balance + -betAmount }
                          (slotService.calculatePayout cfg rng betAmount) hn1 hfind1
                          (not_le.mpr hp),
                        haf, slotRepository.AddSpin]
                      refine ⟨_, _, rfl, u,
                        ⟨u.id, u.externalID, u.balance + -betAmount
                          + slotService.calculatePayout cfg rng betAmount⟩,
                        rfl, rfl, hlt, rfl, ?_, ?_, rfl, ?_⟩
                      · exact WF_setBal (WF_setBal hwf u.id (u.balance + -betAmount)) u.id
                          (u.balance + -betAmount + slotService.calculatePayout cfg rng betAmount)
                      · show findUserByExternalId
                            (setBal (setBal st.users u.id (u.balance + -betAmount)) u.id
                              (u.balance + -betAmount
                                + slotService.calculatePayout cfg rng betAmount)) eid
                          = some ⟨u.id, u.externalID, u.balance + -betAmount
                              + slotService.calculatePayout cfg rng betAmount⟩
                        rw [findUserByExternalId_setBal, findUserByExternalId_setBal, hfind]
                        simp
                      · show u.balance + -betAmount + slotService.calculatePayout cfg rng betAmount
                          = u.balance - betAmount
                            + (if 0 < slotService.calculatePayout cfg rng betAmount then
                                slotService.calculatePayout cfg rng betAmount else 0)
                        rw [if_pos hp]
                        ring
            · cases haf : f.addSpinErr with
              | some e =>
                  right
                  refine ⟨e, ?_⟩
                  simp only [slotService.spin, GetByExternalID_some hfind, hdf,
                    Withdraw_ok hn hfind hlt, if_neg hp, haf, slotRepository.AddSpin]
              | none =>
                  left
                  simp only [slotService.spin, GetByExternalID_some hfind, hdf,
                    Withdraw_ok hn hfind hlt, if_neg hp, haf, slotRepository.AddSpin]
                  refine ⟨_, _, rfl, u,
                    ⟨u.id, u.externalID, u.balance + -betAmount⟩,
                    rfl, rfl, hlt, rfl, ?_, ?_, rfl, ?_⟩
                  · exact WF_setBal hwf u.id (u.balance + -betAmount)
                  · show findUserByExternalId
                        (setBal st.users u.id (u.balance + -betAmount)) eid
                      = some ⟨u.id, u.externalID, u.balance + -betAmount⟩
                    rw [findUserByExternalId_setBal, hfind]
                    simp
                  · show u.balance + -betAmount
                      = u.balance - betAmount
                        + (if 0 < slotService.calculatePayout cfg rng betAmount then
                            slotService.calculatePayout cfg rng betAmount else 0)
                    rw [if_neg hp]
                    ring

theorem getBalance_setBal {st : Store} {eid : Nat} {u : User}
    (hfind : findUserByExternalId st.users eid = some u) (b : ℚ) (sp : List Spin) :
    getBalance ⟨setBal st.users u.id b, sp⟩ eid = b := by
  unfold getBalance
  show ((findUserByExternalId (setBal st.users u.id b) eid).map User.balance).getD 0 = b
  rw [findUserByExternalId_setBal, hfind]
  simp

theorem getBalance_found {st : Store} {eid : Nat} {u : User}
    (hfind : findUserByExternalId st.users eid = some u) :
    getBalance st eid = u.balance := by
  unfold getBalance
  rw [hfind]
  rfl

theorem calculatePayout_nonneg {cfg : SlotConfig} {rng : RngStream} {betAmount : ℚ}
    (hm3 : 0 ≤ cfg.MultiplierThree) (hm2 : 0 ≤ cfg.MultiplierTwo) (hbet : 0 ≤ betAmount) :
    0 ≤ slotService.calculatePayout cfg rng betAmount := by
  simp only [slotService.calculatePayout]
  split
  · exact mul_nonneg hbet hm3
  · split
    · exact mul_nonneg hbet hm2
    · exact le_refl 0

/-! ### Claim theorems. -/

/-- C3: for an account with balance `b`, a debit of `a` with `b < a`
returns `InsufficientFunds` and performs no mutation; otherwise (absent
injected store faults) it succeeds and returns the post-mutation balance
`b - a`; and starting from a non-negative balance, no debit with a
positive amount ever leaves a negative balance. -/
theorem C3_withdraw_guard (f : Option GoError) (st : Store) (eid : Nat) (amount : ℚ)
    (u : User) (hwf : st.WF) (hfind : findUserByExternalId st.users eid = some u) :
    (u.balance < amount →
      userService.Withdraw f st eid amount = (Outcome.fail ErrInsufficientFunds, st)) ∧
    (¬ u.balance < amount → f = none →
      userService.Withdraw f st eid amount
        = (Outcome.ok (u.balance - amount),
           { st with users := setBal st.users u.id (u.balance - amount) }) ∧
      getBalance (userService.Withdraw f st eid amount).2 eid = u.balance - amount) ∧
    (0 ≤ u.balance → 0 < amount →
      0 ≤ getBalance (userService.Withdraw f st eid amount).2 eid) := by
  refine ⟨fun hlt => Withdraw_insufficient f hfind hlt, ?_, ?_⟩
  · intro hge hf
    subst hf
    have heq := Withdraw_ok hwf.1 hfind hge
    simp only [sub_eq_add_neg]
    refine ⟨heq, ?_⟩
    rw [heq]
    exact getBalance_setBal hfind _ _
  · intro hb hpos
    by_cases hlt : u.balance < amount
    · rw [Withdraw_insufficient f hfind hlt]
      show 0 ≤ getBalance st eid
      rw [getBalance_found hfind]
      exact hb
    · cases f with
      | none =>
          rw [Withdraw_ok hwf.1 hfind hlt]
          show 0 ≤ getBalance ⟨setBal st.users u.id (u.balance + -amount), st.spins⟩ eid
          rw [getBalance_setBal hfind]
          linarith [not_lt.mp hlt]
      | some e =>
          rw [Withdraw_fault e hfind hlt]
          show 0 ≤ getBalance st eid
          rw [getBalance_found hfind]
          exact hb

/-- Witness for C3 at the concrete store `witSt` (balance 100): a debit of
200 fails with `InsufficientFunds` leaving the store unchanged, a debit of
30 succeeds with new balance 70, which is non-negative. -/
theorem C3_witness :
    userService.Withdraw none witSt 7 200 = (Outcome.fail ErrInsufficientFunds, witSt) ∧
    userService.Withdraw none witSt 7 30 = (Outcome.ok (70 : ℚ), ⟨[⟨1, 7, 70⟩], []⟩) ∧
    0 ≤ getBalance (userService.Withdraw none witSt 7 30).2 7 := by
  have h := C3_withdraw_guard none witSt 7 200 ⟨1, 7, 100⟩ (by decide) (by decide)
  have h2 := C3_withdraw_guard none witSt 7 30 ⟨1, 7, 100⟩ (by decide) (by decide)
  refine ⟨h.1 (by norm_num), ?_, h2.2.2 (by norm_num) (by norm_num)⟩
  have h3 := (h2.2.1 (by norm_num) rfl).1
  rw [h3]
  norm_num [witSt, setBal]

/-- C9: `Withdraw` performs no positivity check on the amount: whenever
`amount ≤ balance` — including zero and negative amounts — it succeeds
and sets the balance to `balance - amount`; in particular a negative
amount strictly increases the balance. -/
theorem C9_withdraw_no_positivity_check (st : Store) (eid : Nat) (amount : ℚ) (u : User)
    (hwf : st.WF) (hfind : findUserByExternalId st.users eid = some u)
    (hle : amount ≤ u.balance) :
    userService.Withdraw none st eid amount
      = (Outcome.ok (u.balance - amount),
         { st with users := setBal st.users u.id (u.balance - amount) }) ∧
    getBalance (userService.Withdraw none st eid amount).2 eid = u.balance - amount ∧
    (amount < 0 → u.balance < getBalance (userService.Withdraw none st eid amount).2 eid) := by
  have hge : ¬ u.balance < amount := not_lt.mpr hle
  have heq := Withdraw_ok hwf.1 hfind hge
  simp only [sub_eq_add_neg]
  refine ⟨heq, ?_, ?_⟩
  · rw [heq]
    exact getBalance_setBal hfind _ _
  · intro hneg
    rw [heq]
    show u.balance < getBalance ⟨setBal st.users u.id (u.balance + -amount), st.spins⟩ eid
    rw [getBalance_setBal hfind]
    linarith

/-- Witness for C9: withdrawing -25 from balance 100 succeeds and raises
the balance to 125. -/
theorem C9_witness :
    userService.Withdraw none witSt 7 (-25)
      = (Outcome.ok (125 : ℚ), ⟨[⟨1, 7, 125⟩], []⟩) ∧
    (100 : ℚ) < getBalance (userService.Withdraw none witSt 7 (-25)).2 7 := by
  have h := C9_withdraw_no_positivity_check witSt 7 (-25) ⟨1, 7, 100⟩ (by decide) (by decide)
    (by norm_num)
  refine ⟨?_, h.2.2 (by norm_num)⟩
  rw [h.1]
  norm_num [witSt, setBal]

/-- C10: `Deposit` with a non-positive amount rolls back, leaves the store
unchanged and returns `ErrInvalidAmount`, which the source defines as a
second `&InefficientFunds{}` — same dynamic type and same message
"insufficient funds" as `ErrInsufficientFunds`. -/
theorem C10_deposit_invalid_amount (f : Option GoError) (st : Store) (eid : Nat)
    (amount : ℚ) (hle : amount ≤ 0) :
    userService.Deposit f st eid amount = (Outcome.fail ErrInvalidAmount, st) ∧
    ErrInvalidAmount.ty = ErrType.inefficientFunds ∧
    ErrInvalidAmount.ty = ErrInsufficientFunds.ty ∧
    errorMessage ErrInvalidAmount = "insufficient funds" ∧
    errorMessage ErrInvalidAmount = errorMessage ErrInsufficientFunds :=
  ⟨Deposit_invalid f hle, rfl, rfl, rfl, rfl⟩

/-- Witness for C10 at amount 0 on the concrete store. -/
theorem C10_witness :
    userService.Deposit none witSt 7 0 = (Outcome.fail ErrInvalidAmount, witSt) ∧
    errorMessage ErrInvalidAmount = "insufficient funds" := by
  have h := C10_deposit_invalid_amount none witSt 7 0 (le_refl 0)
  exact ⟨h.1, h.2.2.2.1⟩

/-- C7 (code bug evaluation): with no account for external id 7, spin's
step-1 resolution fails with `ErrUserNotFound` and the store is returned
unchanged — but `userService.Withdraw` and `userService.Deposit` invoked
directly with the unresolvable id dereference the nil row the repository
hands back (`GetByExternalId` returns Go `nil, nil` on a missing row) and
panic instead of returning the `AccountNotFound` error the specification
requires. -/
theorem C7_missing_account :
    slotService.spin witCfg witRng noFaults ⟨[], []⟩ 7 10
      = (Outcome.fail ErrUserNotFound, ⟨[], []⟩) ∧
    userService.GetByExternalID ⟨[], []⟩ 7 = Outcome.fail ErrUserNotFound ∧
    userService.Withdraw none ⟨[], []⟩ 7 10 = (Outcome.panicked, ⟨[], []⟩) ∧
    userService.Deposit none ⟨[], []⟩ 7 10 = (Outcome.panicked, ⟨[], []⟩) := by
  refine ⟨?_, ?_, ?_, ?_⟩ <;> decide

/-- C4: `calculatePayout` evaluates in fixed priority order — three-match
on `r1 <= ThreeMatchProbability`, else two-match on
`r2 <= TwoMatchProbability`, else 0 — and with `ThreeMatchProbability = 1`
every payout is `betAmount * MultiplierThree` regardless of the two-match
configuration. -/
theorem C4_payout_priority (cfg : SlotConfig) (rng : RngStream) (betAmount : ℚ) :
    (rng.floatDraws 0 ≤ cfg.ThreeMatchProbability →
      slotService.calculatePayout cfg rng betAmount = betAmount * cfg.MultiplierThree) ∧
    (¬ rng.floatDraws 0 ≤ cfg.ThreeMatchProbability →
      rng.floatDraws 1 ≤ cfg.TwoMatchProbability →
      slotService.calculatePayout cfg rng betAmount = betAmount * cfg.MultiplierTwo) ∧
    (¬ rng.floatDraws 0 ≤ cfg.ThreeMatchProbability →
      ¬ rng.floatDraws 1 ≤ cfg.TwoMatchProbability →
      slotService.calculatePayout cfg rng betAmount = 0) ∧
    (cfg.ThreeMatchProbability = 1 →
      (∀ i, 0 ≤ rng.floatDraws i ∧ rng.floatDraws i < 1) →
      slotService.calculatePayout cfg rng betAmount = betAmount * cfg.MultiplierThree) := by
  refine ⟨fun h1 => ?_, fun h1 h2 => ?_, fun h1 h2 => ?_, fun hp3 hr => ?_⟩
  · simp only [slotService.calculatePayout]
    rw [if_pos h1]
  · simp only [slotService.calculatePayout]
    rw [if_neg h1, if_pos h2]
  · simp only [slotService.calculatePayout]
    rw [if_neg h1, if_neg h2]
  · simp only [slotService.calculatePayout]
    rw [if_pos (by rw [hp3]; exact le_of_lt (hr 0).2)]

/-- Witness for C4: with both probabilities 1 and zero draws, the payout
of a 10 bet is `10 * MultiplierThree = 100` — the three-match priority
wins. -/
theorem C4_witness :
    slotService.calculatePayout witCfg witRng 10 = 10 * witCfg.MultiplierThree ∧
    slotService.calculatePayout witCfg witRng 10 = 100 := by
  constructor
  · exact (C4_payout_priority witCfg witRng 10).2.2.2 rfl
      (fun i => ⟨le_refl 0, by norm_num [witRng]⟩)
  · norm_num [slotService.calculatePayout, witCfg, witRng]

/-- C8 (code bug evaluation): with both probabilities configured to 0 the
source still pays `betAmount * MultiplierThree` when the first draw is
exactly 0 — a value `rand.Float64` can produce — because the comparison
is `r1 <= probability`. The repository's own `NoMatch` test case expects
win 0 for this configuration. -/
theorem C8_zero_probability_still_wins :
    noWinCfg.ThreeMatchProbability = 0 ∧ noWinCfg.TwoMatchProbability = 0 ∧
    (0 : ℚ) ≤ witRng.floatDraws 0 ∧ witRng.floatDraws 0 < 1 ∧
    slotService.calculatePayout noWinCfg witRng 10 = 100 ∧ (100 : ℚ) ≠ 0 := by
  refine ⟨rfl, rfl, le_refl 0, by norm_num [witRng], ?_, by norm_num⟩
  norm_num [slotService.calculatePayout, noWinCfg, witRng]

/-- C2: settlement is atomic. If a spin returns a record, the record was
appended and the balance reflects both the debit of `betAmount` and the
credit of the (non-negative) `winAmount`; if any step fails, the store —
balance and history alike — is exactly what it was before the attempt;
and `spin` never panics. -/
theorem C2_spin_atomic (cfg : SlotConfig) (rng : RngStream) (f : DbFaults) (st : Store)
    (eid : Nat) (betAmount : ℚ) (hwf : st.WF) (hm3 : 0 ≤ cfg.MultiplierThree)
    (hm2 : 0 ≤ cfg.MultiplierTwo) (hbet : 0 ≤ betAmount) :
    (∀ rec st', slotService.spin cfg rng f st eid betAmount = (Outcome.ok rec, st') →
      st'.spins = st.spins ++ [rec] ∧ rec.betAmount = betAmount ∧ 0 ≤ rec.winAmount ∧
      getBalance st' eid = getBalance st eid - betAmount + rec.winAmount) ∧
    (∀ e st', slotService.spin cfg rng f st eid betAmount = (Outcome.fail e, st') →
      st' = st) ∧
    (∀ st', slotService.spin cfg rng f st eid betAmount ≠ (Outcome.panicked, st')) := by
  have hP := @calculatePayout_nonneg cfg rng betAmount hm3 hm2 hbet
  rcases spin_cases cfg rng f st eid betAmount hwf with
    ⟨rec0, st0, heq, u, u', hfind, hrec, hnlt, hspins, hwf0, hfind0, hid, hbal⟩ | ⟨e0, heq⟩
  · refine ⟨?_, ?_, ?_⟩
    · intro rec st' h
      rw [heq] at h
      rw [Prod.mk.injEq, Outcome.ok.injEq] at h
      obtain ⟨hr, hs⟩ := h
      subst hr
      subst hs
      have hwin : rec0.winAmount = slotService.calculatePayout cfg rng betAmount := by
        rw [hrec]
      have hifwin : (if 0 < rec0.winAmount then rec0.winAmount else 0) = rec0.winAmount := by
        by_cases hp : 0 < rec0.winAmount
        · rw [if_pos hp]
        · rw [if_neg hp]
          have hz : rec0.winAmount = 0 := le_antisymm (not_lt.mp hp) (hwin ▸ hP)
          rw [hz]
      refine ⟨hspins, by rw [hrec], hwin ▸ hP, ?_⟩
      rw [getBalance_found hfind0, getBalance_found hfind, hbal, hifwin]
    · intro e st' h
      rw [heq] at h
      simp at h
    · intro st' h
      rw [heq] at h
      simp at h
  · refine ⟨?_, ?_, ?_⟩
    · intro rec st' h
      rw [heq] at h
      simp at h
    · intro e st' h
      rw [heq] at h
      rw [Prod.mk.injEq] at h
      exact h.2.symm
    · intro st' h
      rw [heq] at h
      simp at h

/-- Witness for C2: a committed spin on the concrete store (balance 100,
bet 10, three-match payout 100) appends the record and moves the balance
to 190 = 100 - 10 + 100; and an attempt whose history insert faults
returns an error and leaves the store untouched. -/
theorem C2_witness :
    (slotService.spin witCfg witRng noFaults witSt 7 10).2.spins
        = witSt.spins ++ [⟨1, 10, 100⟩] ∧
    getBalance (slotService.spin witCfg witRng noFaults witSt 7 10).2 7
        = getBalance witSt 7 - 10 + 100 ∧
    slotService.spin witCfg witRng ⟨none, none, some ErrUserExists⟩ witSt 7 10
        = (Outcome.fail ErrUserExists, witSt) := by
  have hspin : slotService.spin witCfg witRng noFaults witSt 7 10
      = (Outcome.ok ⟨1, 10, 100⟩, (slotService.spin witCfg witRng noFaults witSt 7 10).2) := by
    norm_num [slotService.spin, userService.GetByExternalID, userService.Withdraw,
      userService.Deposit, userRepository.GetByExternalId, userRepository.Withdraw,
      userRepository.Deposit, userRepository.updateBalance, slotRepository.AddSpin,
      slotService.calculatePayout, findUserByExternalId, findUserById, setBal,
      witCfg, witRng, witSt, noFaults]
  have h := (C2_spin_atomic witCfg witRng noFaults witSt 7 10 (by decide) (by norm_num [witCfg])
    (by norm_num [witCfg]) (by norm_num)).1 ⟨1, 10, 100⟩
    (slotService.spin witCfg witRng noFaults witSt 7 10).2 hspin
  have h2 := (C2_spin_atomic witCfg witRng ⟨none, none, some ErrUserExists⟩ witSt 7 10
    (by decide) (by norm_num [witCfg]) (by norm_num [witCfg]) (by norm_num)).2.1 ErrUserExists
    (slotService.spin witCfg witRng ⟨none, none, some ErrUserExists⟩ witSt 7 10).2
  refine ⟨h.1, ?_, ?_⟩
  · have := h.2.2.2
    simpa using this
  · have hspin2 : slotService.spin witCfg witRng ⟨none, none, some ErrUserExists⟩ witSt 7 10
        = (Outcome.fail ErrUserExists,
           (slotService.spin witCfg witRng ⟨none, none, some ErrUserExists⟩ witSt 7 10).2) := by
      norm_num [slotService.spin, userService.GetByExternalID, userService.Withdraw,
        userService.Deposit, userRepository.GetByExternalId, userRepository.Withdraw,
        userRepository.Deposit, userRepository.updateBalance, slotRepository.AddSpin,
        slotService.calculatePayout, findUserByExternalId, findUserById, setBal,
        witCfg, witRng, witSt]
    rw [hspin2]
    rw [h2 hspin2]

/-- C1: conservation. For any sequence of attempts on one account that all
commit, and for EVERY prefix of that sequence, the balance after the
prefix equals the initial balance minus the sum of the prefix's bets plus
the sum of the win amounts its records carry — exactly. -/
theorem C1_conservation (cfg : SlotConfig) (eid : Nat) (attempts : List SpinAttempt)
    (hm3 : 0 ≤ cfg.MultiplierThree) (hm2 : 0 ≤ cfg.MultiplierTwo) :
    ∀ st : Store, st.WF → (∀ a ∈ attempts, 0 ≤ a.betAmount) →
      ((runSpins cfg eid attempts st).2).all Outcome.isOk = true →
      ∀ n, getBalance (runSpins cfg eid (attempts.take n) st).1 eid
          = getBalance st eid - sumBets (attempts.take n)
            + sumWins (runSpins cfg eid (attempts.take n) st).2 := by
  induction attempts with
  | nil =>
      intro st hwf hbets hok n
      simp [runSpins, sumBets, sumWins]
  | cons a rest ih =>
      intro st hwf hbets hok n
      rcases spin_cases cfg a.rng a.faults st eid a.betAmount hwf with
        ⟨rec0, st0, heq, u, u', hfind, hrec, hnlt, hspins, hwf0, hfind0, hid, hbal⟩ |
        ⟨e0, heq⟩
      · cases n with
        | zero =>
            simp [runSpins, sumBets, sumWins]
        | succ m =>
            have hbets' : ∀ x ∈ rest, 0 ≤ x.betAmount :=
              fun x hx => hbets x (List.mem_cons_of_mem a hx)
            have hok' : ((runSpins cfg eid rest st0).2).all Outcome.isOk = true := by
              have h := hok
              simp only [runSpins, heq, List.all_cons, Outcome.isOk, Bool.true_and] at h
              exact h
            have hPa : 0 ≤ slotService.calculatePayout cfg a.rng a.betAmount :=
              calculatePayout_nonneg hm3 hm2 (hbets a (List.mem_cons_self a rest))
            have hwin : rec0.winAmount = slotService.calculatePayout cfg a.rng a.betAmount := by
              rw [hrec]
            have hifwin : (if 0 < rec0.winAmount then rec0.winAmount else 0)
                = rec0.winAmount := by
              by_cases hp : 0 < rec0.winAmount
              · rw [if_pos hp]
              · rw [if_neg hp]
                have hz : rec0.winAmount = 0 := le_antisymm (not_lt.mp hp) (hwin ▸ hPa)
                rw [hz]
            simp only [List.take_succ_cons, runSpins, heq]
            rw [ih st0 hwf0 hbets' hok' m]
            simp only [sumBets, sumWins, List.map_cons, List.sum_cons, Outcome.isOk]
            rw [getBalance_found hfind, getBalance_found hfind0, hbal, hifwin]
            ring
      · exfalso
        have h := hok
        simp only [runSpins, heq, List.all_cons, Outcome.isOk, Bool.false_and] at h
        exact Bool.noConfusion h

/-- Witness for C1: two committed spins of bet 10 on balance 100 with
three-match payout 100 each; the conservation equation holds after the
first spin (balance 190) and after both (balance 280). -/
theorem C1_witness :
    ((runSpins witCfg 7 witAttempts witSt).2).all Outcome.isOk = true ∧
    getBalance (runSpins witCfg 7 (witAttempts.take 1) witSt).1 7
        = getBalance witSt 7 - sumBets (witAttempts.take 1)
          + sumWins (runSpins witCfg 7 (witAttempts.take 1) witSt).2 ∧
    getBalance (runSpins witCfg 7 (witAttempts.take 2) witSt).1 7
        = getBalance witSt 7 - sumBets (witAttempts.take 2)
          + sumWins (runSpins witCfg 7 (witAttempts.take 2) witSt).2 := by
  have hallok : ((runSpins witCfg 7 witAttempts witSt).2).all Outcome.isOk = true := by
    norm_num [runSpins, witAttempts, Outcome.isOk, slotService.spin,
      userService.GetByExternalID, userService.Withdraw, userService.Deposit,
      userRepository.GetByExternalId, userRepository.Withdraw, userRepository.Deposit,
      userRepository.updateBalance, slotRepository.AddSpin, slotService.calculatePayout,
      findUserByExternalId, findUserById, setBal, witCfg, witRng, witSt, noFaults]
  have hc := C1_conservation witCfg 7 witAttempts (by norm_num [witCfg]) (by norm_num [witCfg])
    witSt (by decide) (by norm_num [witAttempts]) hallok
  exact ⟨hallok, hc 1, hc 2⟩

/-! ### Lemmas about the retry loop. -/

/-- Every attempt of one `backoff.Retry` call other than the final one
returned an error classified recoverable, i.e. `ErrInsufficientFunds`
itself: a permanent error or a success always ends the loop at once. -/
theorem backoffRetryAux_only_recoverable (params : BackOffParams)
    (outcomes : Nat → Option GoError) (rands durs : Nat → ℚ) :
    ∀ (fuel i : Nat) (elapsed current slept : ℚ) (t : RetryTrace),
      backoffRetryAux params outcomes rands durs fuel i elapsed current slept = some t →
      (∀ j, i ≤ j → j + 1 < t.attempts → outcomes j = some ErrInsufficientFunds) ∧
      i < t.attempts := by
  intro fuel
  induction fuel with
  | zero =>
      intro i elapsed current slept t h
      exact absurd h (by simp [backoffRetryAux])
  | succ n ihn =>
      intro i elapsed current slept t h
      cases ho : outcomes i with
      | none =>
          simp only [backoffRetryAux, ho] at h
          injection h with h2
          subst h2
          refine ⟨fun j hij hj => ?_, Nat.lt_succ_self i⟩
          have hj' : j + 1 < i + 1 := hj
          omega
      | some e =>
          simp only [backoffRetryAux, ho] at h
          by_cases hr : errorsIs e ErrInsufficientFunds = true
          · rw [if_pos hr] at h
            have he : e = ErrInsufficientFunds := by
              have := hr
              simp [errorsIs] at this
              exact this
            by_cases hstop : params.maxElapsedTime ≠ 0 ∧ params.maxElapsedTime
                < elapsed + durs i + getRandomValueFromInterval params.randomizationFactor
                  (rands i) current
            · rw [if_pos hstop] at h
              injection h with h2
              subst h2
              refine ⟨fun j hij hj => ?_, Nat.lt_succ_self i⟩
              have hj' : j + 1 < i + 1 := hj
              omega
            · rw [if_neg hstop] at h
              obtain ⟨ih1, ih2⟩ := ihn (i + 1) _ _ _ t h
              refine ⟨fun j hij hj => ?_, by omega⟩
              rcases Nat.eq_or_lt_of_le hij with rfl | hij'
              · rw [ho, he]
              · exact ih1 j (by omega) hj
          · rw [if_neg hr] at h
            injection h with h2
            subst h2
            refine ⟨fun j hij hj => ?_, Nat.lt_succ_self i⟩
            have hj' : j + 1 < i + 1 := hj
            omega

/-- With every attempt failing recoverably, the slot-service backoff
(initial 500ms, multiplier 1.5, randomization 0.5, budget 2s) always
stops: the loop returns the recoverable error as a definitive failure
within the given fuel, with total sleep time inside the 2s budget. -/
theorem backoffRetryAux_terminates (outcomes : Nat → Option GoError) (rands durs : Nat → ℚ)
    (hout : ∀ i, outcomes i = some ErrInsufficientFunds)
    (hrand : ∀ i, 0 ≤ rands i) (hdur : ∀ i, 0 ≤ durs i) :
    ∀ (fuel i : Nat) (elapsed current slept : ℚ),
      500000000 ≤ current → slept ≤ elapsed → 0 ≤ slept → slept ≤ 2000000000 →
      1 ≤ fuel → 2000000000 < (fuel : ℚ) * 250000000 + elapsed →
      ∃ n s, backoffRetryAux slotBackoffParams outcomes rands durs fuel i elapsed
          current slept = some ⟨RetryFinal.failure ErrInsufficientFunds, n, s⟩ ∧
        n ≤ i + fuel ∧ 0 ≤ s ∧ s ≤ 2000000000 := by
  intro fuel
  induction fuel with
  | zero =>
      intro i elapsed current slept hcur hse hs0 hsb hfuel hmeas
      omega
  | succ n ihn =>
      intro i elapsed current slept hcur hse hs0 hsb hfuel hmeas
      have hr : errorsIs ErrInsufficientFunds ErrInsufficientFunds = true := by decide
      have hnext : (250000000 : ℚ) ≤ getRandomValueFromInterval (1/2) (rands i) current := by
        have hc0 : (0 : ℚ) ≤ current := by linarith
        have hm := mul_nonneg (hrand i) (show (0 : ℚ) ≤ current + 1 by linarith)
        simp only [getRandomValueFromInterval]
        rw [if_neg (by norm_num)]
        nlinarith
      by_cases hstop : (2000000000 : ℚ) ≠ 0 ∧ (2000000000 : ℚ)
          < elapsed + durs i + getRandomValueFromInterval (1/2) (rands i) current
      · refine ⟨i + 1, slept, ?_, by omega, hs0, hsb⟩
        simp only [backoffRetryAux, hout i, slotBackoffParams]
        rw [if_pos hr, if_pos hstop]
      · have hguard : elapsed + durs i + getRandomValueFromInterval (1/2) (rands i) current
            ≤ 2000000000 := by
          rcases not_and_or.mp hstop with hc | hc
          · exact absurd (by norm_num) hc
          · linarith [not_lt.mp hc]
        have hcur' : (500000000 : ℚ)
            ≤ incrementCurrentInterval current 60000000000 (3/2) := by
          simp only [incrementCurrentInterval]
          split
          · norm_num
          · nlinarith
        have h1n : 1 ≤ n := by
          have hd := hdur i
          have hel : elapsed + 250000000 ≤ 2000000000 := by linarith
          by_contra hn0
          have hz : n = 0 := by omega
          subst hz
          push_cast at hmeas
          linarith
        have hmeas' : 2000000000 < (n : ℚ) * 250000000
            + (elapsed + durs i + getRandomValueFromInterval (1/2) (rands i) current) := by
          have hd := hdur i
          push_cast at hmeas
          linarith
        obtain ⟨n', s', heq', hb', hs0', hs2'⟩ := ihn (i + 1)
          (elapsed + durs i + getRandomValueFromInterval (1/2) (rands i) current)
          (incrementCurrentInterval current 60000000000 (3/2))
          (slept + getRandomValueFromInterval (1/2) (rands i) current)
          hcur' (by linarith [hdur i]) (by linarith) (by linarith [hdur i]) h1n hmeas'
        refine ⟨n', s', ?_, by omega, hs0', hs2'⟩
        simp only [backoffRetryAux, hout i, slotBackoffParams]
        rw [if_pos hr, if_neg hstop]
        exact heq'

/-! ### Claim theorems about the retry policy. -/

/-- C5: `RetrySpin` surfaces any error that is not
`ErrInsufficientFunds` immediately — one attempt, no sleep — and any
attempt it does retry had failed with `ErrInsufficientFunds`; the
recoverable test is the identity comparison `errors.Is` with the
sentinel, independent of message text. -/
theorem C5_retry_classification (outcomes : Nat → Option GoError) (rands durs : Nat → ℚ)
    (fuel : Nat) :
    (∀ e, outcomes 0 = some e → e ≠ ErrInsufficientFunds →
      slotRetry outcomes rands durs (fuel + 1)
        = some ⟨RetryFinal.failure e, 1, 0⟩) ∧
    (∀ t, slotRetry outcomes rands durs fuel = some t →
      ∀ j, j + 1 < t.attempts → outcomes j = some ErrInsufficientFunds) ∧
    (∀ e, errorsIs e ErrInsufficientFunds = true ↔ e = ErrInsufficientFunds) := by
  refine ⟨?_, ?_, ?_⟩
  · intro e h0 hne
    have hr : ¬ errorsIs e ErrInsufficientFunds = true := by
      simp [errorsIs]
      exact hne
    simp only [slotRetry, backoffRetryAux, h0]
    rw [if_neg hr]
  · intro t ht j hj
    exact (backoffRetryAux_only_recoverable slotBackoffParams outcomes rands durs fuel 0 0
      slotBackoffParams.initialInterval 0 t ht).1 j (Nat.zero_le j) hj
  · intro e
    simp [errorsIs]

/-- Witness for C5: an account-not-found error on the first attempt is
surfaced unchanged after exactly one attempt with no sleep; and the
classification test distinguishes it from the recoverable sentinel. -/
theorem C5_witness :
    slotRetry (fun _ => some ErrUserNotFound) (fun _ => 0) (fun _ => 0) 3
        = some ⟨RetryFinal.failure ErrUserNotFound, 1, 0⟩ ∧
    (errorsIs ErrUserNotFound ErrInsufficientFunds = true
      ↔ ErrUserNotFound = ErrInsufficientFunds) := by
  constructor
  · exact (C5_retry_classification (fun _ => some ErrUserNotFound) (fun _ => 0)
      (fun _ => 0) 2).1 ErrUserNotFound rfl (by decide)
  · exact (C5_retry_classification (fun _ => some ErrUserNotFound) (fun _ => 0)
      (fun _ => 0) 2).2.2 ErrUserNotFound

/-- C6: when every attempt fails with `ErrInsufficientFunds`, the retry
loop of `RetrySpin` terminates — fuel 9 always suffices for the 2s
budget with 500ms initial interval, multiplier 1.5 and randomization
factor 0.5 — returning the last recoverable error as a definitive
failure, after at most 9 attempts and sleeping at most the 2s budget. -/
theorem C6_retry_bounded (outcomes : Nat → Option GoError) (rands durs : Nat → ℚ)
    (hout : ∀ i, outcomes i = some ErrInsufficientFunds)
    (hrand : ∀ i, 0 ≤ rands i) (hdur : ∀ i, 0 ≤ durs i) :
    ∃ n s, slotRetry outcomes rands durs 9
        = some ⟨RetryFinal.failure ErrInsufficientFunds, n, s⟩ ∧
      n ≤ 9 ∧ 0 ≤ s ∧ s ≤ 2000000000 := by
  have h := backoffRetryAux_terminates outcomes rands durs hout hrand hdur 9 0 0
    500000000 0 (le_refl _) (le_refl 0) (le_refl 0) (by norm_num) (by omega)
    (by push_cast; norm_num)
  simpa [slotRetry, slotBackoffParams] using h

/-- Witness for C6: with all-insufficient-funds outcomes, zero random
draws and instantaneous attempts, the loop stops with the error. -/
theorem C6_witness :
    ∃ n s, slotRetry (fun _ => some ErrInsufficientFunds) (fun _ => 0) (fun _ => 0) 9
        = some ⟨RetryFinal.failure ErrInsufficientFunds, n, s⟩ ∧
      n ≤ 9 ∧ 0 ≤ s ∧ s ≤ 2000000000 :=
  C6_retry_bounded (fun _ => some ErrInsufficientFunds) (fun _ => 0) (fun _ => 0)
    (fun _ => rfl) (fun _ => le_refl 0) (fun _ => le_refl 0)

end SlotGame
